import Mathlib

/-!
Shallow embedding of the analytics core of the `performance-os` repository
(pure TypeScript calculation functions), together with theorems checking the
natural-language specification's claims against it.

Numbers are modelled as `ℚ` (JS `number` arithmetic on the small inputs in
scope is exact decimal/rational arithmetic), `Math.round` as `jsRound`
(round half toward +∞, JS semantics), ISO `YYYY-MM-DD` date strings as day
numbers (`ℕ`/`ℤ`), whose numeric order coincides with the string
(`localeCompare`) order used by the source.
-/

namespace PerformanceOS

/-- JS `Math.round`: rounds half toward +∞, i.e. `⌊x + 1/2⌋`. -/
def jsRound (x : ℚ) : ℤ := ⌊x + 1/2⌋

namespace CalorieEngine

/-- From `src/engines/calorieEngine.ts`:
`epley1RM(weight, reps) = if (reps <= 0) weight else weight * (1 + reps / 30)`. -/
def epley1RM (weight reps : ℚ) : ℚ :=
  if reps ≤ 0 then weight else weight * (1 + reps / 30)

end CalorieEngine

namespace Utils

/-- From `src/lib/utils.ts`:
`epley1RM(weight, reps) = if (reps === 1) weight else Math.round(weight * (1 + reps / 30))`. -/
def epley1RM (weight reps : ℚ) : ℚ :=
  if reps = 1 then weight else (jsRound (weight * (1 + reps / 30)) : ℚ)

end Utils

-- ── Training load engine (src/engines/intelligenceEngine.ts area of types/index.ts) ──

inductive LoadStatus
  | undertraining
  | optimal
  | overtraining
deriving DecidableEq, Repr

/-- From the load engine:
`if (sessions < 2 || totalLoad < 60) return 'undertraining';
 if (totalLoad > 300 || sessions > 7) return 'overtraining';
 return 'optimal';` -/
def classifyWeekLoad (totalLoad sessions : ℤ) : LoadStatus :=
  if sessions < 2 ∨ totalLoad < 60 then .undertraining
  else if totalLoad > 300 ∨ sessions > 7 then .overtraining
  else .optimal

-- ── Body composition engine (src/engines/… analyzeComposition) ──

/-- Body-metric row as read by the composition engine: ISO date as a day
number, optional weight (kg) and body-fat (%). -/
structure BodyMetric where
  date : ℕ
  weight : Option ℚ
  body_fat : Option ℚ
deriving DecidableEq, Repr, Inhabited

inductive CompositionTrend
  | bulking
  | cutting
  | recomping
  | maintaining
  | insufficient_data
deriving DecidableEq, Repr

structure CompositionAnalysis where
  trend : CompositionTrend
  weight_change_kg : ℚ
  body_fat_change_pct : ℚ
  period_days : ℕ
deriving DecidableEq, Repr

/-- The engine's internal sort: `[...metrics].sort((a, b) => a.date.localeCompare(b.date))`. -/
def sortByDate (metrics : List BodyMetric) : List BodyMetric :=
  List.insertionSort (fun a b => a.date ≤ b.date) metrics

/-- The classification if/else chain of `analyzeComposition`, with the fixed
thresholds `WEIGHT_THRESHOLD = 0.5` and `BF_THRESHOLD = 0.3`. -/
def classifyTrend (weightPerMonth bfPerMonth : ℚ) : CompositionTrend :=
  if weightPerMonth > 1/2 ∧ bfPerMonth < 3/10 then .bulking
  else if weightPerMonth < -(1/2) ∧ bfPerMonth < -(3/10) then .cutting
  else if |weightPerMonth| < 1/2 ∧ bfPerMonth < -(3/10) then .recomping
  else .maintaining

/-- Embeds `analyzeComposition` from the composition engine: sort by date, fewer
than 2 rows → `insufficient_data`; otherwise classify the first-to-last
deltas scaled to per-30-day rates, and report the raw deltas rounded to one
decimal together with the period length (whole days, minimum 1). -/
def analyzeComposition (metrics : List BodyMetric) : CompositionAnalysis :=
  let sorted := sortByDate metrics
  if sorted.length < 2 then
    ⟨.insufficient_data, 0, 0, 0⟩
  else
    let first := sorted.head?.getD default
    let last := sorted.getLast?.getD default
    let periodDays : ℕ := max 1 (last.date - first.date)
    let weightChange := last.weight.getD 0 - first.weight.getD 0
    let bfChange := last.body_fat.getD 0 - first.body_fat.getD 0
    let scale : ℚ := 30 / (periodDays : ℚ)
    ⟨classifyTrend (weightChange * scale) (bfChange * scale),
     (jsRound (weightChange * 10) : ℚ) / 10,
     (jsRound (bfChange * 10) : ℚ) / 10,
     periodDays⟩

/-- Per-30-day weight rate as worded by the claim: raw first-to-last delta
× 30 / period_days. -/
def specWeightRate (metrics : List BodyMetric) : ℚ :=
  let sorted := sortByDate metrics
  let first := sorted.head?.getD default
  let last := sorted.getLast?.getD default
  ((last.weight.getD 0 - first.weight.getD 0) * 30) / ((max 1 (last.date - first.date) : ℕ) : ℚ)

/-- Per-30-day body-fat rate as worded by the claim. -/
def specBodyFatRate (metrics : List BodyMetric) : ℚ :=
  let sorted := sortByDate metrics
  let first := sorted.head?.getD default
  let last := sorted.getLast?.getD default
  ((last.body_fat.getD 0 - first.body_fat.getD 0) * 30) / ((max 1 (last.date - first.date) : ℕ) : ℚ)

-- ── Metabolism engine (src/engines/metabolismEngine.ts) ──

structure WeightPoint where
  date : ℕ
  weight : ℚ
deriving DecidableEq, Repr, Inhabited

inductive TrendDirection
  | losing
  | gaining
  | stable
deriving DecidableEq, Repr

structure WeightTrend where
  direction : TrendDirection
  rate_kg_per_week : ℚ
  estimated_deficit_kcal : ℤ
deriving DecidableEq, Repr

/-- The engine's internal sort `[...points].sort((a, b) => a.date.localeCompare(b.date))`. -/
def sortPointsByDate (points : List WeightPoint) : List WeightPoint :=
  List.insertionSort (fun a b => a.date ≤ b.date) points

/-- Embeds `const first = sorted[0]`. -/
def wtFirst (points : List WeightPoint) : WeightPoint :=
  (sortPointsByDate points).head?.getD default

/-- Embeds `const last = sorted[sorted.length - 1]`. -/
def wtLast (points : List WeightPoint) : WeightPoint :=
  (sortPointsByDate points).getLast?.getD default

/-- Embeds `const spanDays = Math.max((last - first) / 86_400_000, 1)` (in days). -/
def spanDays (points : List WeightPoint) : ℚ :=
  max ((((wtLast points).date : ℤ) - ((wtFirst points).date : ℤ) : ℤ) : ℚ) 1

/-- Embeds `const deltaKg = last.weight - first.weight`. -/
def deltaKg (points : List WeightPoint) : ℚ :=
  (wtLast points).weight - (wtFirst points).weight

/-- Embeds `const ratePerDay = deltaKg / spanDays`. -/
def ratePerDay (points : List WeightPoint) : ℚ :=
  deltaKg points / spanDays points

/-- Embeds `const ratePerWeek = ratePerDay * 7`. -/
def ratePerWeek (points : List WeightPoint) : ℚ :=
  ratePerDay points * 7

/-- Embeds `calcWeightTrend` from the metabolism engine: `null` for fewer than 2
points or a span (clamped to ≥ 1 day) under 3 days; otherwise the two-point
trend with `STABLE_THRESHOLD_KG = 0.1` and 1 kg ≈ 7700 kcal. -/
def calcWeightTrend (points : List WeightPoint) : Option WeightTrend :=
  if points.length < 2 then none
  else if spanDays points < 3 then none
  else
    some ⟨if |ratePerWeek points| < 1/10 then .stable
          else if ratePerWeek points < 0 then .losing else .gaining,
          (jsRound (ratePerWeek points * 100) : ℚ) / 100,
          jsRound (ratePerDay points * 7700)⟩

/-- First-to-last date span in days, as worded by the claim. -/
def specSpanDays (points : List WeightPoint) : ℤ :=
  ((wtLast points).date : ℤ) - ((wtFirst points).date : ℤ)

/-- Weekly rate `(last.weight − first.weight) / spanDays × 7`, as worded by the claim. -/
def specRatePerWeek (points : List WeightPoint) : ℚ :=
  ((wtLast points).weight - (wtFirst points).weight)
    / ((specSpanDays points : ℤ) : ℚ) * 7

-- ── Calorie engine (src/engines/calorieEngine.ts) ──

inductive CalorieMethod
  | cardio_speed_met
  | cardio_type_fallback
  | strength_intensity
  | strength_duration
deriving DecidableEq, Repr

structure CalorieResult where
  calories : ℤ
  met : ℚ
  method : CalorieMethod
  duration_hrs : ℚ
deriving DecidableEq, Repr

/-- Table `CARDIO_SPEED_MET`; `none` stands for the `Infinity` bound. -/
def CARDIO_SPEED_MET : List (Option ℚ × ℚ) :=
  [(some 5, 3.5), (some 7, 5), (some 9, 7), (some 11, 9.5), (some 14, 11.5),
   (none, 14)]

/-- Embeds `speedToMET`: first table entry whose bound the speed does not exceed. -/
def speedToMET (speedKmh : ℚ) : ℚ :=
  match CARDIO_SPEED_MET.find?
      (fun e => match e.1 with
        | none => true
        | some m => decide (speedKmh ≤ m)) with
  | some e => e.2
  | none => 14

/-- Table `CARDIO_KEYWORD_MET` in object-literal (insertion) order. -/
def CARDIO_KEYWORD_MET : List (String × ℚ) :=
  [("run", 9), ("jog", 7), ("cycl", 8), ("bike", 8), ("swim", 7), ("row", 7),
   ("walk", 3.5), ("hiit", 10), ("sport", 7)]

/-- JS `String.prototype.includes` on the character lists. -/
def strContains (s pat : String) : Bool :=
  s.toList.tails.any (fun t => pat.toList.isPrefixOf t)

/-- Embeds `detectCardioMET`: first keyword contained in the lower-cased notes;
`CARDIO_DEFAULT_MET = 6.0` otherwise. -/
def detectCardioMET (notes : String) : ℚ :=
  match CARDIO_KEYWORD_MET.find? (fun kv => strContains notes.toLower kv.1) with
  | some kv => kv.2
  | none => 6

/-- Table `STRENGTH_INTENSITY_MET`. -/
def STRENGTH_INTENSITY_MET : List (ℚ × ℚ) :=
  [(0.6, 3), (0.75, 4.5), (0.85, 6), (1, 8)]

/-- Embeds `intensityToMET`: first band the intensity does not exceed; last band
(8.0) as fallback. -/
def intensityToMET (intensity : ℚ) : ℚ :=
  match STRENGTH_INTENSITY_MET.find? (fun e => decide (intensity ≤ e.1)) with
  | some e => e.2
  | none => 8

structure CardioInput where
  duration : ℚ
  distance : Option ℚ
  notes : Option String
deriving DecidableEq, Repr

/-- The met/method selection of `calcCardioCalories`: speed-based when
`input.distance && input.distance > 0`, keyword fallback on
`input.notes ?? ''` otherwise. -/
def cardioMetMethod (input : CardioInput) (duration_hrs : ℚ) : ℚ × CalorieMethod :=
  match input.distance with
  | some d =>
    if 0 < d then (speedToMET (d / duration_hrs), .cardio_speed_met)
    else (detectCardioMET (input.notes.getD ("")), .cardio_type_fallback)
  | none => (detectCardioMET (input.notes.getD ("")), .cardio_type_fallback)

/-- Embeds `const duration_hrs = input.duration / 60`. -/
def cardioDurationHrs (input : CardioInput) : ℚ := input.duration / 60

/-- Embeds `calcCardioCalories`: guarded degenerate result for `duration <= 0` or
`weightKg <= 0`, otherwise `round(met * weightKg * duration_hrs)`. -/
def calcCardioCalories (input : CardioInput) (weightKg : ℚ) : CalorieResult :=
  if input.duration ≤ 0 ∨ weightKg ≤ 0 then
    ⟨0, 0, .cardio_type_fallback, 0⟩
  else
    ⟨jsRound ((cardioMetMethod input (cardioDurationHrs input)).1 * weightKg *
        cardioDurationHrs input),
     (cardioMetMethod input (cardioDurationHrs input)).1,
     (cardioMetMethod input (cardioDurationHrs input)).2,
     cardioDurationHrs input⟩

structure StrengthSetInput where
  weight : ℚ
  reps : ℚ
deriving DecidableEq, Repr

structure StrengthInput where
  sets : List StrengthSetInput
  duration : Option ℚ
deriving DecidableEq, Repr

/-- Embeds `const validSets = input.sets.filter(s => s.weight > 0 && s.reps > 0)`. -/
def validSets (input : StrengthInput) : List StrengthSetInput :=
  input.sets.filter (fun s => decide (0 < s.weight) && decide (0 < s.reps))

/-- Embeds `const estimatedDurationMins = input.duration ??
Math.round((totalSets * (SET_DURATION_SECS + REST_DURATION_SECS)) / 60)`
with `totalSets = Math.max(input.sets.length, 1)`. -/
def estimatedDurationMins (input : StrengthInput) : ℚ :=
  match input.duration with
  | some d => d
  | none => (jsRound (((max input.sets.length 1 : ℕ) : ℚ) * (45 + 90) / 60) : ℚ)

/-- Embeds `const method = input.duration ? 'strength_intensity' : 'strength_duration'`
(JS truthiness: an explicit duration of 0 is falsy). -/
def strengthMethod (input : StrengthInput) : CalorieMethod :=
  match input.duration with
  | some d => if d = 0 then .strength_duration else .strength_intensity
  | none => .strength_duration

/-- Embeds `const duration_hrs = estimatedDurationMins / 60`. -/
def strengthDurationHrs (input : StrengthInput) : ℚ :=
  estimatedDurationMins input / 60

/-- Embeds `validSets.reduce((best, s) => { const rm = epley1RM(...); return rm > best ? rm : best; }, 0)`. -/
def best1RM (input : StrengthInput) : ℚ :=
  (validSets input).foldl
    (fun best s =>
      if best < CalorieEngine.epley1RM s.weight s.reps
      then CalorieEngine.epley1RM s.weight s.reps else best) 0

/-- Embeds `validSets.reduce((sum, s) => sum + s.weight / epley1RM(s.weight, s.reps), 0) / validSets.length`. -/
def avgIntensity (input : StrengthInput) : ℚ :=
  ((validSets input).foldl
    (fun sum s => sum + s.weight / CalorieEngine.epley1RM s.weight s.reps) 0)
    / ((validSets input).length : ℚ)

/-- Embeds `const met = best1RM > 0 ? intensityToMET(avgIntensity) : STRENGTH_DEFAULT_MET`. -/
def strengthMET (input : StrengthInput) : ℚ :=
  if 0 < best1RM input then intensityToMET (avgIntensity input) else 4.5

/-- Embeds `calcStrengthCalories`: guard for `weightKg <= 0`, default-MET result when
no valid sets, intensity-based MET otherwise; `STRENGTH_DEFAULT_MET = 4.5`. -/
def calcStrengthCalories (input : StrengthInput) (weightKg : ℚ) : CalorieResult :=
  if weightKg ≤ 0 then
    ⟨0, 4.5, .strength_intensity, 0⟩
  else if validSets input = [] then
    ⟨jsRound (4.5 * weightKg * strengthDurationHrs input), 4.5,
     strengthMethod input, strengthDurationHrs input⟩
  else
    ⟨jsRound (strengthMET input * weightKg * strengthDurationHrs input),
     strengthMET input, strengthMethod input, strengthDurationHrs input⟩

-- ── JS `Map` with string keys: association list with insertion-order semantics ──

/-- JS `Map.prototype.get`: value of the first (and, under the nodup-keys
invariant, only) pair with this key. -/
def mapGet {κ α : Type} [DecidableEq κ] : List (κ × α) → κ → Option α
  | [], _ => none
  | (k₀, v₀) :: t, k => if k = k₀ then some v₀ else mapGet t k

/-- JS `Map.prototype.set`: update the existing pair in place, else append. -/
def mapSet {κ α : Type} [DecidableEq κ] : List (κ × α) → κ → α → List (κ × α)
  | [], k, v => [(k, v)]
  | (k₀, v₀) :: t, k, v =>
    if k₀ = k then (k₀, v) :: t else (k₀, v₀) :: mapSet t k v

-- ── Personal records (findPersonalRecords in src/types/index.ts) ──

/-- Strength set row as read by `findPersonalRecords`; exercise ids are
opaque strings in the source, modelled as `ℕ`; dates as day numbers. -/
structure SetWithDate where
  exercise_id : ℕ
  weight : Option ℚ
  reps : Option ℚ
  activity_date : Option ℕ
deriving DecidableEq, Repr

/-- Output record; `achieved_on := set.activity_date ?? ''` is modelled with
`none` for the missing-date sentinel. -/
structure PRRecord where
  exercise_id : ℕ
  exercise_name : String
  weight : ℚ
  reps : ℚ
  estimated_1rm : ℚ
  achieved_on : Option ℕ
deriving DecidableEq, Repr

/-- JS falsiness of an optional numeric field (`!set.weight`):
`null`/`undefined` or `0`. -/
def numFalsy (o : Option ℚ) : Bool :=
  match o with
  | none => true
  | some x => decide (x = 0)

/-- Loop body of `findPersonalRecords`: skip sets with falsy weight or reps,
compute the (utils) Epley 1RM, replace the per-exercise best only when
strictly larger (`oneRM > current.oneRM`). -/
def prStep (best : List (ℕ × (SetWithDate × ℚ))) (set : SetWithDate) :
    List (ℕ × (SetWithDate × ℚ)) :=
  if numFalsy set.weight || numFalsy set.reps then best
  else
    let oneRM := Utils.epley1RM (set.weight.getD 0) (set.reps.getD 0)
    match mapGet best set.exercise_id with
    | none => mapSet best set.exercise_id (set, oneRM)
    | some current =>
      if current.2 < oneRM then mapSet best set.exercise_id (set, oneRM)
      else best

/-- Embeds `findPersonalRecords`: per-exercise best set by estimated 1RM, emitted
sorted descending by `estimated_1rm` (comparator `b.estimated_1rm − a.estimated_1rm`). -/
def findPersonalRecords (sets : List SetWithDate)
    (exerciseMap : ℕ → Option String) : List PRRecord :=
  ((sets.foldl prStep []).map (fun p =>
    { exercise_id := p.1
      exercise_name := (exerciseMap p.1).getD ("Unknown")
      weight := p.2.1.weight.getD 0
      reps := p.2.1.reps.getD 0
      estimated_1rm := p.2.2
      achieved_on := p.2.1.activity_date })).insertionSort
    (fun a b => b.estimated_1rm ≤ a.estimated_1rm)

/-- The three bench sets of the claim's scenario: (5×100), (5×105), (3×110). -/
def benchSets : List SetWithDate :=
  [⟨0, some 100, some 5, some 1⟩, ⟨0, some 105, some 5, some 1⟩,
   ⟨0, some 110, some 3, some 1⟩]

/-- Exercise-name map sending every id to "Bench". -/
def benchMap : ℕ → Option String := fun _ => some ("Bench")

-- ── Weekly training loads (calcWeeklyLoads in src/types/index.ts) ──

inductive ActivityType
  | strength
  | cardio
  | sport
  | mobility
  | custom
deriving DecidableEq, Repr

/-- Activity as read by the load engine: ISO date as an epoch-day number. -/
structure Activity where
  date : ℤ
  type : ActivityType
  duration : Option ℚ
deriving DecidableEq, Repr

/-- Table `LOAD_PER_MIN` per activity type (total, so the `?? 0.6` default never
fires). -/
def LOAD_PER_MIN : ActivityType → ℚ
  | .strength => 1
  | .cardio => 0.8
  | .sport => 0.7
  | .mobility => 0.3
  | .custom => 0.6

/-- Embeds `calcActivityLoad`: `Math.round(duration * multiplier)` with
`DEFAULT_DURATION = 30`. -/
def calcActivityLoad (a : Activity) : ℤ :=
  jsRound ((a.duration.getD 30) * LOAD_PER_MIN a.type)

/-- Embeds `getWeekStart` (Monday) from `src/lib/utils.ts` on epoch-day numbers:
JS `getDay()` of day `d` is `(d + 4) % 7` (day 0, 1970-01-01, was a
Thursday); `diff = date - day + (day === 0 ? -6 : 1)`. -/
def getWeekStart (d : ℤ) : ℤ :=
  d - ((d + 4) % 7) + (if (d + 4) % 7 = 0 then -6 else 1)

/-- Embeds `const weekStart = format(getWeekStart(new Date(activity.date)), 'yyyy-MM-dd')`. -/
def weekOf (a : Activity) : ℤ := getWeekStart a.date

/-- One bucket of the week map. -/
structure WeekEntry where
  strength_load : ℤ
  cardio_load : ℤ
  session_count : ℤ
deriving DecidableEq, Repr

/-- Per-activity update of a week bucket: strength load vs the cardio bucket
(which absorbs all non-strength types), plus the session count. -/
def weekAccum (entry : WeekEntry) (a : Activity) : WeekEntry :=
  let load := calcActivityLoad a
  let e := if a.type = .strength
    then { entry with strength_load := entry.strength_load + load }
    else { entry with cardio_load := entry.cardio_load + load }
  { e with session_count := e.session_count + 1 }

/-- Loop body of `calcWeeklyLoads` over the week map. -/
def weekStep (m : List (ℤ × WeekEntry)) (a : Activity) : List (ℤ × WeekEntry) :=
  mapSet m (weekOf a) (weekAccum ((mapGet m (weekOf a)).getD ⟨0, 0, 0⟩) a)

structure WeeklyLoad where
  week_start : ℤ
  total_load : ℤ
  strength_load : ℤ
  cardio_load : ℤ
  session_count : ℤ
  status : LoadStatus
deriving DecidableEq, Repr

/-- Projection of a week-map entry to the output record. -/
def toWeeklyLoad (p : ℤ × WeekEntry) : WeeklyLoad :=
  ⟨p.1, p.2.strength_load + p.2.cardio_load, p.2.strength_load,
   p.2.cardio_load, p.2.session_count,
   classifyWeekLoad (p.2.strength_load + p.2.cardio_load) p.2.session_count⟩

/-- Embeds `calcWeeklyLoads`: group by week start into the (insertion-ordered) map,
project, and sort ascending by `week_start`. -/
def calcWeeklyLoads (activities : List Activity) : List WeeklyLoad :=
  ((activities.foldl weekStep []).map toWeeklyLoad).insertionSort
    (fun a b => a.week_start ≤ b.week_start)

/-- The per-key accumulator semantics of the week-map fold. -/
def accumOpt (o : Option WeekEntry) (a : Activity) : Option WeekEntry :=
  some (weekAccum (o.getD ⟨0, 0, 0⟩) a)

-- ───────────────────────────── Claims C1–C3, C9 ─────────────────────────────

/-- C1: `classifyWeekLoad` returns `undertraining` iff `S < 2 ∨ L < 60`
(checked first), otherwise `overtraining` iff `L > 300 ∨ S > 7`, otherwise
`optimal`; with the four concrete anchor evaluations from the claim. -/
theorem claim_C1 :
    (∀ L S : ℤ,
      (classifyWeekLoad L S = .undertraining ↔ S < 2 ∨ L < 60) ∧
      (classifyWeekLoad L S = .overtraining ↔
        ¬(S < 2 ∨ L < 60) ∧ (L > 300 ∨ S > 7)) ∧
      (classifyWeekLoad L S = .optimal ↔
        ¬(S < 2 ∨ L < 60) ∧ ¬(L > 300 ∨ S > 7))) ∧
    classifyWeekLoad 59 5 = .undertraining ∧
    classifyWeekLoad 301 1 = .undertraining ∧
    classifyWeekLoad 150 3 = .optimal ∧
    classifyWeekLoad 301 8 = .overtraining := by
  refine ⟨fun L S => ?_, by decide, by decide, by decide, by decide⟩
  unfold classifyWeekLoad
  split_ifs with h1 h2 <;> simp_all

/-- C2 counterexample: the calorie-engine estimator does not return the weight
unchanged at one rep: `epley1RM(60, 1) = 62 ≠ 60`. -/
theorem claim_C2_counterexample :
    CalorieEngine.epley1RM 60 1 = 62 ∧ (62 : ℚ) ≠ 60 := by
  constructor
  · unfold CalorieEngine.epley1RM
    norm_num
  · norm_num

/-- C2 (amended): the shared-utilities estimator returns the weight unchanged
at one rep, while the calorie-engine estimator returns `w * (31/30)` there
(hence agrees with the claim only at `w = 0`). -/
theorem claim_C2 :
    (∀ w : ℚ, Utils.epley1RM w 1 = w) ∧
    (∀ w : ℚ, CalorieEngine.epley1RM w 1 = w * (31/30)) := by
  constructor
  · intro w
    unfold Utils.epley1RM
    simp
  · intro w
    unfold CalorieEngine.epley1RM
    norm_num

/-- C3 counterexample: at zero reps neither estimator returns 0 on weight 5:
both return 5. -/
theorem claim_C3_counterexample :
    CalorieEngine.epley1RM 5 0 = 5 ∧ Utils.epley1RM 5 0 = 5 ∧ (5 : ℚ) ≠ 0 := by
  refine ⟨?_, ?_, by norm_num⟩
  · unfold CalorieEngine.epley1RM
    norm_num
  · unfold Utils.epley1RM jsRound
    norm_num

/-- C3 (amended): at zero reps the calorie-engine estimator returns the weight
itself and the utilities estimator returns the weight rounded; the result is 0
only for weight 0, not for every weight. -/
theorem claim_C3 :
    (∀ w : ℚ, CalorieEngine.epley1RM w 0 = w) ∧
    (∀ w : ℚ, Utils.epley1RM w 0 = (jsRound w : ℚ)) ∧
    CalorieEngine.epley1RM 0 0 = 0 ∧ Utils.epley1RM 0 0 = 0 := by
  have h1 : ∀ w : ℚ, CalorieEngine.epley1RM w 0 = w := by
    intro w
    unfold CalorieEngine.epley1RM
    norm_num
  have h2 : ∀ w : ℚ, Utils.epley1RM w 0 = (jsRound w : ℚ) := by
    intro w
    unfold Utils.epley1RM
    norm_num
  refine ⟨h1, h2, h1 0, ?_⟩
  rw [h2 0]
  unfold jsRound
  norm_num

/-- C9 counterexample: the two exported estimators disagree at weight 60 and
one rep: the calorie-engine one returns 62, the utilities one returns 60. -/
theorem claim_C9_counterexample :
    CalorieEngine.epley1RM 60 1 = 62 ∧ Utils.epley1RM 60 1 = 60 ∧
    (62 : ℚ) ≠ 60 := by
  refine ⟨?_, ?_, by norm_num⟩
  · unfold CalorieEngine.epley1RM
    norm_num
  · unfold Utils.epley1RM
    simp

/-- C9 (amended): for every weight and integer rep count `r ≥ 0` with `r ≠ 1`,
the utilities estimator equals the JS-rounding of the calorie-engine
estimator; at `r = 1` the two genuinely diverge (utilities returns `w`, the
engine returns `w * (31/30)`). -/
theorem claim_C9 (w : ℚ) (r : ℤ) (hr : 0 ≤ r) (hr1 : r ≠ 1) :
    Utils.epley1RM w (r : ℚ) = (jsRound (CalorieEngine.epley1RM w (r : ℚ)) : ℚ) := by
  unfold Utils.epley1RM CalorieEngine.epley1RM
  rcases eq_or_lt_of_le hr with h0 | hpos
  · rw [← h0]
    norm_num
  · have hne : (r : ℚ) ≠ 1 := by
      exact_mod_cast hr1
    have hnle : ¬((r : ℚ) ≤ 0) := by
      push_neg
      exact_mod_cast hpos
    rw [if_neg hne, if_neg hnle]

/-- C9 witness: concrete instance at weight 100, 5 reps. -/
theorem claim_C9_witness :
    Utils.epley1RM 100 ((5 : ℤ) : ℚ) =
      (jsRound (CalorieEngine.epley1RM 100 ((5 : ℤ) : ℚ)) : ℚ) :=
  claim_C9 100 5 (by norm_num) (by norm_num)

theorem sortByDate_length (metrics : List BodyMetric) :
    (sortByDate metrics).length = metrics.length :=
  (List.perm_insertionSort _ _).length_eq

theorem classifyTrend_iff (w bf : ℚ) :
    (classifyTrend w bf = .bulking ↔ w > 1/2 ∧ bf < 3/10) ∧
    (classifyTrend w bf = .cutting ↔ w < -(1/2) ∧ bf < -(3/10)) ∧
    (classifyTrend w bf = .recomping ↔ |w| < 1/2 ∧ bf < -(3/10)) ∧
    (classifyTrend w bf = .maintaining ↔
      ¬(w > 1/2 ∧ bf < 3/10) ∧ ¬(w < -(1/2) ∧ bf < -(3/10)) ∧
      ¬(|w| < 1/2 ∧ bf < -(3/10))) := by
  unfold classifyTrend
  split_ifs with h1 h2 h3
  · refine ⟨⟨fun _ => h1, fun _ => rfl⟩, ?_, ?_, ?_⟩ <;> simp only [reduceCtorEq, false_iff]
    · rintro ⟨hw, -⟩
      exact absurd hw (by linarith [h1.1])
    · rintro ⟨hw, -⟩
      exact absurd (abs_lt.mp hw).2 (by linarith [h1.1])
    · rintro ⟨hn, -, -⟩
      exact hn h1
  · refine ⟨?_, ⟨fun _ => h2, fun _ => rfl⟩, ?_, ?_⟩ <;> simp only [reduceCtorEq, false_iff]
    · exact h1
    · rintro ⟨hw, -⟩
      exact absurd (abs_lt.mp hw).1 (by linarith [h2.1])
    · rintro ⟨-, hn, -⟩
      exact hn h2
  · refine ⟨?_, ?_, ⟨fun _ => h3, fun _ => rfl⟩, ?_⟩ <;> simp only [reduceCtorEq, false_iff]
    · exact h1
    · exact h2
    · rintro ⟨-, -, hn⟩
      exact hn h3
  · refine ⟨?_, ?_, ?_, ⟨fun _ => ⟨h1, h2, h3⟩, fun _ => rfl⟩⟩ <;>
      simp only [reduceCtorEq, false_iff]
    · exact h1
    · exact h2
    · exact h3

theorem analyzeComposition_trend_eq (metrics : List BodyMetric)
    (h : 2 ≤ metrics.length) :
    (analyzeComposition metrics).trend =
      classifyTrend (specWeightRate metrics) (specBodyFatRate metrics) := by
  unfold analyzeComposition specWeightRate specBodyFatRate
  have hlen : ¬ (sortByDate metrics).length < 2 := by
    rw [sortByDate_length]
    omega
  rw [if_neg hlen]
  ring_nf

/-- C4: for every collection of at least 2 body-metric rows, the composition
trend is classified from the per-30-day normalized first-to-last deltas with
thresholds 0.5 kg/month and 0.3 %/month exactly as the claim states, and the
two concrete anchor pairs classify as `bulking` and `cutting`. -/
theorem claim_C4 :
    (∀ metrics : List BodyMetric, 2 ≤ metrics.length →
      ((analyzeComposition metrics).trend = .bulking ↔
        specWeightRate metrics > 1/2 ∧ specBodyFatRate metrics < 3/10) ∧
      ((analyzeComposition metrics).trend = .cutting ↔
        specWeightRate metrics < -(1/2) ∧ specBodyFatRate metrics < -(3/10)) ∧
      ((analyzeComposition metrics).trend = .recomping ↔
        |specWeightRate metrics| < 1/2 ∧ specBodyFatRate metrics < -(3/10)) ∧
      ((analyzeComposition metrics).trend = .maintaining ↔
        ¬(specWeightRate metrics > 1/2 ∧ specBodyFatRate metrics < 3/10) ∧
        ¬(specWeightRate metrics < -(1/2) ∧ specBodyFatRate metrics < -(3/10)) ∧
        ¬(|specWeightRate metrics| < 1/2 ∧ specBodyFatRate metrics < -(3/10)))) ∧
    (analyzeComposition [⟨0, some 80, some 20⟩, ⟨30, some 82, some 20⟩]).trend
      = .bulking ∧
    (analyzeComposition [⟨0, some 80, some 20⟩, ⟨30, some 78, some 17⟩]).trend
      = .cutting := by
  refine ⟨fun metrics h => ?_,
    by norm_num [analyzeComposition, sortByDate, classifyTrend,
      List.insertionSort, List.orderedInsert],
    by norm_num [analyzeComposition, sortByDate, classifyTrend,
      List.insertionSort, List.orderedInsert]⟩
  rw [analyzeComposition_trend_eq metrics h]
  exact classifyTrend_iff _ _

/-- C4 witness: the general part of C4 applied to a concrete two-row
collection (dates 0 and 30, weight 80 → 83, body fat 20 → 20). -/
theorem claim_C4_witness :
    (analyzeComposition [⟨0, some 80, some 20⟩, ⟨30, some 83, some 20⟩]).trend
      = .bulking :=
  ((claim_C4.1 [⟨0, some 80, some 20⟩, ⟨30, some 83, some 20⟩]
      (by norm_num)).1).mpr
    (by norm_num [specWeightRate, specBodyFatRate, sortByDate,
      List.insertionSort, List.orderedInsert])

theorem spanDays_eq_of_not_lt (points : List WeightPoint)
    (h3 : ¬ spanDays points < 3) :
    spanDays points = ((specSpanDays points : ℤ) : ℚ) := by
  unfold spanDays specSpanDays
  apply max_eq_left
  by_contra hc
  exact h3 (by unfold spanDays; rw [max_eq_right (le_of_lt (not_le.mp hc))]; norm_num)

/-- C5: `calcWeightTrend` returns `none` exactly for fewer than 2 points or a
first-to-last span under 3 days; otherwise the returned trend carries
`rate_kg_per_week` equal to the two-point weekly rate rounded to 2 decimals,
direction `stable` iff the weekly rate is below 0.1 kg/week in absolute
value, and otherwise `losing`/`gaining` by sign; with the two concrete
anchor evaluations from the claim. -/
theorem claim_C5 :
    (∀ points : List WeightPoint,
      (calcWeightTrend points = none ↔
        points.length < 2 ∨ specSpanDays points < 3)) ∧
    (∀ (points : List WeightPoint) (t : WeightTrend),
      calcWeightTrend points = some t →
        t.rate_kg_per_week = (jsRound (specRatePerWeek points * 100) : ℚ) / 100 ∧
        (t.direction = .stable ↔ |specRatePerWeek points| < 1/10) ∧
        (¬ |specRatePerWeek points| < 1/10 →
          ((t.direction = .losing ↔ specRatePerWeek points < 0) ∧
           (t.direction = .gaining ↔ 0 < specRatePerWeek points)))) ∧
    calcWeightTrend [⟨0, 80⟩, ⟨2, 79⟩] = none ∧
    calcWeightTrend [⟨0, 81⟩, ⟨7, 80⟩] = some ⟨.losing, -1, -1100⟩ := by
  refine ⟨fun points => ?_, fun points t ht => ?_, ?_, ?_⟩
  · unfold calcWeightTrend
    split_ifs with h1 h3
    · simp [h1]
    · simp only [true_iff]
      right
      have := (max_lt_iff.mp (by unfold spanDays at h3; exact h3)).1
      unfold specSpanDays
      exact_mod_cast this
    · simp only [reduceCtorEq, false_iff]
      push_neg
      refine ⟨not_lt.mp h1, ?_⟩
      by_contra hc
      push_neg at hc
      apply h3
      unfold spanDays
      refine max_lt_iff.mpr ⟨?_, by norm_num⟩
      unfold specSpanDays at hc
      exact_mod_cast hc
  · unfold calcWeightTrend at ht
    by_cases h1 : points.length < 2
    · rw [if_pos h1] at ht
      exact absurd ht (by simp)
    · rw [if_neg h1] at ht
      by_cases h3 : spanDays points < 3
      · rw [if_pos h3] at ht
        exact absurd ht (by simp)
      · rw [if_neg h3] at ht
        have hspan := spanDays_eq_of_not_lt points h3
        have hrw : ratePerWeek points = specRatePerWeek points := by
          unfold ratePerWeek ratePerDay deltaKg specRatePerWeek
          rw [hspan]
        obtain rfl : t = _ := (Option.some_inj.mp ht).symm
        rw [← hrw]
        refine ⟨rfl, ?_, ?_⟩
        · by_cases hst : |ratePerWeek points| < 1/10
          · rw [if_pos hst]
            exact iff_of_true rfl hst
          · refine iff_of_false ?_ hst
            rw [if_neg hst]
            split_ifs <;> simp
        · intro hst
          simp only [if_neg hst]
          constructor
          · split_ifs with hs
            · exact iff_of_true rfl hs
            · simp only [reduceCtorEq, false_iff]
              exact hs
          · split_ifs with hs
            · simp only [reduceCtorEq, false_iff]
              intro hp
              linarith
            · simp only [true_iff]
              rcases lt_trichotomy (ratePerWeek points) 0 with h | h | h
              · exact absurd h hs
              · exact absurd (by rw [h]; norm_num :
                  |ratePerWeek points| < 1/10) hst
              · exact h
  · norm_num [calcWeightTrend, spanDays, wtFirst, wtLast, sortPointsByDate,
      List.insertionSort, List.orderedInsert]
  · norm_num [calcWeightTrend, spanDays, deltaKg, ratePerDay, ratePerWeek,
      wtFirst, wtLast, sortPointsByDate, List.insertionSort,
      List.orderedInsert, jsRound]

/-- C5 witness: the some-case part of C5 applied to the concrete 7-day,
−1 kg pair of points. -/
theorem claim_C5_witness :
    (WeightTrend.mk .losing (-1) (-1100)).rate_kg_per_week =
      (jsRound (specRatePerWeek [⟨0, 81⟩, ⟨7, 80⟩] * 100) : ℚ) / 100 ∧
    ((WeightTrend.mk .losing (-1) (-1100)).direction = .stable ↔
      |specRatePerWeek [⟨0, 81⟩, ⟨7, 80⟩]| < 1/10) ∧
    (¬ |specRatePerWeek [⟨0, 81⟩, ⟨7, 80⟩]| < 1/10 →
      (((WeightTrend.mk .losing (-1) (-1100)).direction = .losing ↔
        specRatePerWeek [⟨0, 81⟩, ⟨7, 80⟩] < 0) ∧
       ((WeightTrend.mk .losing (-1) (-1100)).direction = .gaining ↔
        0 < specRatePerWeek [⟨0, 81⟩, ⟨7, 80⟩]))) :=
  claim_C5.2.1 [⟨0, 81⟩, ⟨7, 80⟩] ⟨.losing, -1, -1100⟩
    (by norm_num [calcWeightTrend, spanDays, deltaKg, ratePerDay, ratePerWeek,
      wtFirst, wtLast, sortPointsByDate, List.insertionSort,
      List.orderedInsert, jsRound])

/-- C7 counterexample: a strength session with explicit duration −60 minutes
and body weight 70 kg has `duration ≤ 0` but computes −315 calories, not 0. -/
theorem claim_C7_counterexample :
    (calcStrengthCalories ⟨[], some (-60)⟩ 70).calories = -315 ∧
    ((-315 : ℤ) ≠ 0) ∧ ((-60 : ℚ) ≤ 0) := by
  refine ⟨?_, by norm_num, by norm_num⟩
  norm_num [calcStrengthCalories, validSets, strengthDurationHrs,
    estimatedDurationMins, strengthMethod, jsRound]

/-- C7 (amended): the cardio estimator returns the zero-calorie degenerate
result (method and MET fields populated) whenever duration ≤ 0 or body
weight ≤ 0; the strength estimator does so whenever body weight ≤ 0, and
also returns 0 calories for an explicit duration of exactly 0 — but a
strictly negative explicit duration with positive body weight yields
negative calories. -/
theorem claim_C7 :
    (∀ (input : CardioInput) (w : ℚ), input.duration ≤ 0 ∨ w ≤ 0 →
      calcCardioCalories input w = ⟨0, 0, .cardio_type_fallback, 0⟩) ∧
    (∀ (input : StrengthInput) (w : ℚ), w ≤ 0 →
      calcStrengthCalories input w = ⟨0, 4.5, .strength_intensity, 0⟩) ∧
    (∀ (input : StrengthInput) (w : ℚ), input.duration = some 0 →
      (calcStrengthCalories input w).calories = 0) := by
  refine ⟨fun input w h => ?_, fun input w h => ?_, fun input w h => ?_⟩
  · unfold calcCardioCalories
    rw [if_pos h]
  · unfold calcStrengthCalories
    rw [if_pos h]
  · unfold calcStrengthCalories
    by_cases hw : w ≤ 0
    · rw [if_pos hw]
    · rw [if_neg hw]
      have hdur : strengthDurationHrs input = 0 := by
        unfold strengthDurationHrs estimatedDurationMins
        rw [h]
        norm_num
      rw [hdur]
      split_ifs <;> simp [jsRound] <;> norm_num

/-- C7 witness: the cardio guard applied at a concrete zero-duration input. -/
theorem claim_C7_witness :
    calcCardioCalories ⟨0, none, none⟩ 70 =
      ⟨0, 0, .cardio_type_fallback, 0⟩ :=
  claim_C7.1 ⟨0, none, none⟩ 70 (Or.inl (by norm_num))

-- ── C10: the strength MET depends only on reps, never on the weights ──

theorem filter_valid_forall2 {l₁ l₂ : List StrengthSetInput}
    (h : List.Forall₂ (fun a b => a.reps = b.reps ∧ 0 < a.weight ∧ 0 < b.weight)
      l₁ l₂) :
    List.Forall₂
      (fun a b => a.reps = b.reps ∧ 0 < a.weight ∧ 0 < b.weight ∧ 0 < a.reps)
      (l₁.filter (fun s => decide (0 < s.weight) && decide (0 < s.reps)))
      (l₂.filter (fun s => decide (0 < s.weight) && decide (0 < s.reps))) := by
  induction h with
  | nil => exact List.Forall₂.nil
  | @cons a b t₁ t₂ hab htl ih =>
    obtain ⟨hr, ha, hb⟩ := hab
    rw [List.filter_cons, List.filter_cons]
    by_cases hrep : 0 < a.reps
    · rw [if_pos (by simp [ha, hrep]), if_pos (by simp [hb, hr ▸ hrep])]
      exact List.Forall₂.cons ⟨hr, ha, hb, hrep⟩ ih
    · rw [if_neg (by simp [hrep]), if_neg (by simp [hr ▸ hrep])]
      exact ih

theorem intensity_sum_eq {l₁ l₂ : List StrengthSetInput}
    (h : List.Forall₂
      (fun a b => a.reps = b.reps ∧ 0 < a.weight ∧ 0 < b.weight ∧ 0 < a.reps)
      l₁ l₂) :
    ∀ acc : ℚ,
      l₁.foldl (fun sum s => sum + s.weight / CalorieEngine.epley1RM s.weight s.reps) acc =
      l₂.foldl (fun sum s => sum + s.weight / CalorieEngine.epley1RM s.weight s.reps) acc := by
  induction h with
  | nil => intro acc; rfl
  | @cons a b t₁ t₂ hab htl ih =>
    intro acc
    obtain ⟨hr, ha, hb, hrep⟩ := hab
    have hterm : a.weight / CalorieEngine.epley1RM a.weight a.reps =
        b.weight / CalorieEngine.epley1RM b.weight b.reps := by
      unfold CalorieEngine.epley1RM
      rw [if_neg (by linarith : ¬ a.reps ≤ 0),
        if_neg (by rw [← hr]; linarith : ¬ b.reps ≤ 0)]
      rw [div_mul_cancel_left₀ (ne_of_gt ha), div_mul_cancel_left₀ (ne_of_gt hb), hr]
    simp only [List.foldl_cons]
    rw [hterm]
    exact ih _

theorem best1RM_pos_aux :
    ∀ (l : List StrengthSetInput) (acc : ℚ), 0 < acc →
      0 < l.foldl (fun best s =>
        if best < CalorieEngine.epley1RM s.weight s.reps
        then CalorieEngine.epley1RM s.weight s.reps else best) acc
  | [], _, h => h
  | s :: t, acc, h => by
      simp only [List.foldl_cons]
      apply best1RM_pos_aux
      split_ifs with hlt
      · linarith
      · exact h

theorem best1RM_pos (input : StrengthInput) (hne : validSets input ≠ []) :
    0 < best1RM input := by
  unfold best1RM
  obtain ⟨s, t, heq⟩ := List.exists_cons_of_ne_nil hne
  have hs : s ∈ validSets input := by
    rw [heq]
    exact List.mem_cons_self _ _
  have hpred := List.of_mem_filter hs
  simp only [Bool.and_eq_true, decide_eq_true_eq] at hpred
  have hrm : 0 < CalorieEngine.epley1RM s.weight s.reps := by
    unfold CalorieEngine.epley1RM
    rw [if_neg (by linarith [hpred.2] : ¬ s.reps ≤ 0)]
    have h30 : 0 < s.reps / 30 := div_pos hpred.2 (by norm_num)
    exact mul_pos hpred.1 (by linarith)
  rw [heq]
  simp only [List.foldl_cons]
  apply best1RM_pos_aux
  rw [if_pos (by linarith)]
  exact hrm

/-- C10: with positive body weight, equal (optional) duration, and per-set
reps equal pairwise while all weights are positive in both inputs, the
strength calorie estimator selects the same MET no matter what the weights
are — each set's relative intensity `weight / epley1RM(weight, reps)`
cancels the weight. -/
theorem claim_C10 (sets₁ sets₂ : List StrengthSetInput) (dur : Option ℚ)
    (w : ℚ) (hw : 0 < w)
    (h : List.Forall₂ (fun a b => a.reps = b.reps ∧ 0 < a.weight ∧ 0 < b.weight)
      sets₁ sets₂) :
    (calcStrengthCalories ⟨sets₁, dur⟩ w).met =
      (calcStrengthCalories ⟨sets₂, dur⟩ w).met := by
  have hval := filter_valid_forall2 h
  unfold calcStrengthCalories
  rw [if_neg (not_le.mpr hw), if_neg (not_le.mpr hw)]
  by_cases hemp : validSets ⟨sets₁, dur⟩ = []
  · have hemp₂ : validSets ⟨sets₂, dur⟩ = [] := by
      apply List.length_eq_zero.mp
      show (List.filter (fun s => decide (0 < s.weight) && decide (0 < s.reps))
        sets₂).length = 0
      rw [← hval.length_eq]
      show (validSets ⟨sets₁, dur⟩).length = 0
      rw [hemp]
      rfl
    rw [if_pos hemp, if_pos hemp₂]
  · have hemp₂ : validSets ⟨sets₂, dur⟩ ≠ [] := by
      intro hc
      apply hemp
      apply List.length_eq_zero.mp
      show (List.filter (fun s => decide (0 < s.weight) && decide (0 < s.reps))
        sets₁).length = 0
      rw [hval.length_eq]
      show (validSets ⟨sets₂, dur⟩).length = 0
      rw [hc]
      rfl
    rw [if_neg hemp, if_neg hemp₂]
    show strengthMET ⟨sets₁, dur⟩ = strengthMET ⟨sets₂, dur⟩
    unfold strengthMET
    rw [if_pos (best1RM_pos _ hemp), if_pos (best1RM_pos _ hemp₂)]
    congr 1
    unfold avgIntensity validSets
    rw [intensity_sum_eq hval 0, hval.length_eq]

/-- C10 witness: two single-set sessions with identical reps (5) but weights
100 kg vs 60 kg select the same MET at body weight 70 kg. -/
theorem claim_C10_witness :
    (calcStrengthCalories ⟨[⟨100, 5⟩], none⟩ 70).met =
      (calcStrengthCalories ⟨[⟨60, 5⟩], none⟩ 70).met :=
  claim_C10 [⟨100, 5⟩] [⟨60, 5⟩] none 70 (by norm_num)
    (List.Forall₂.cons ⟨rfl, by norm_num, by norm_num⟩ List.Forall₂.nil)

/-- C6 counterexample: on the claim's three bench sets the returned record's
estimated 1RM is 123 (the utils estimator rounds 105 × (1 + 5/30) = 122.5 up),
not 122.5. -/
theorem claim_C6_counterexample :
    (findPersonalRecords benchSets benchMap).map
      (fun r => (r.weight, r.reps, r.estimated_1rm)) = [(105, 5, 123)] ∧
    ((123 : ℚ) ≠ 122.5) := by
  refine ⟨?_, by norm_num⟩
  norm_num [findPersonalRecords, benchSets, benchMap, prStep, mapGet, mapSet,
    numFalsy, Utils.epley1RM, jsRound, List.insertionSort, List.orderedInsert]

/-- C6 (amended): on sets (5×100), (5×105), (3×110) of one exercise,
`findPersonalRecords` returns exactly one record — the (5×105) set with
estimated 1RM 123 (= round(122.5)), beating 121 and 117 — and an exact
1RM tie is resolved to the first-encountered set in input order. -/
theorem claim_C6 :
    findPersonalRecords benchSets benchMap =
      [⟨0, "Bench", 105, 5, 123, some 1⟩] ∧
    (findPersonalRecords
      [⟨0, some 105, some 5, some 1⟩, ⟨0, some 105, some 5, some 2⟩]
      benchMap).map (fun r => r.achieved_on) = [some 1] := by
  constructor
  · norm_num [findPersonalRecords, benchSets, benchMap, prStep, mapGet, mapSet,
      numFalsy, Utils.epley1RM, jsRound, List.insertionSort, List.orderedInsert]
  · norm_num [findPersonalRecords, benchMap, prStep, mapGet, mapSet,
      numFalsy, Utils.epley1RM, jsRound, List.insertionSort, List.orderedInsert]

theorem mapGet_mapSet {κ α : Type} [DecidableEq κ] :
    ∀ (m : List (κ × α)) (k k' : κ) (v : α),
      mapGet (mapSet m k v) k' = if k' = k then some v else mapGet m k'
  | [], k, k', v => rfl
  | (k₀, v₀) :: t, k, k', v => by
      show mapGet (if k₀ = k then (k₀, v) :: t else (k₀, v₀) :: mapSet t k v) k'
        = if k' = k then some v else mapGet ((k₀, v₀) :: t) k'
      by_cases h0 : k₀ = k
      · subst h0
        rw [if_pos rfl]
        show (if k' = k₀ then some v else mapGet t k') = _
        by_cases h' : k' = k₀ <;> simp [mapGet, h']
      · rw [if_neg h0]
        show (if k' = k₀ then some v₀ else mapGet (mapSet t k v) k') = _
        rw [mapGet_mapSet t k k' v]
        by_cases h' : k' = k₀
        · subst h'
          rw [if_pos rfl, if_neg h0]
          simp [mapGet]
        · rw [if_neg h']
          by_cases hk : k' = k
          · simp [hk, mapGet, h']
          · simp [hk, mapGet, h']

theorem mapGet_foldl_weekStep :
    ∀ (l : List Activity) (m : List (ℤ × WeekEntry)) (k : ℤ),
      mapGet (l.foldl weekStep m) k =
        (l.filter (fun a => decide (weekOf a = k))).foldl accumOpt (mapGet m k)
  | [], _, _ => rfl
  | a :: t, m, k => by
      simp only [List.foldl_cons, List.filter_cons]
      rw [mapGet_foldl_weekStep t _ k]
      by_cases hk : weekOf a = k
      · rw [if_pos (by simp [hk])]
        simp only [List.foldl_cons]
        congr 1
        show mapGet (mapSet m (weekOf a)
          (weekAccum ((mapGet m (weekOf a)).getD ⟨0, 0, 0⟩) a)) k =
          accumOpt (mapGet m k) a
        rw [mapGet_mapSet, if_pos hk.symm]
        unfold accumOpt
        rw [hk]
      · rw [if_neg (by simp [hk])]
        congr 1
        show mapGet (mapSet m (weekOf a)
          (weekAccum ((mapGet m (weekOf a)).getD ⟨0, 0, 0⟩) a)) k = mapGet m k
        rw [mapGet_mapSet, if_neg (fun hc => hk hc.symm)]

theorem mapSet_keys_mem {κ α : Type} [DecidableEq κ] :
    ∀ (m : List (κ × α)) (k : κ) (v : α) (k' : κ),
      k' ∈ (mapSet m k v).map Prod.fst ↔ k' ∈ m.map Prod.fst ∨ k' = k
  | [], k, v, k' => by simp [mapSet]
  | (k₀, v₀) :: t, k, v, k' => by
      show k' ∈ (if k₀ = k then (k₀, v) :: t else (k₀, v₀) :: mapSet t k v).map
        Prod.fst ↔ _
      by_cases h0 : k₀ = k
      · subst h0
        rw [if_pos rfl]
        simp only [List.map_cons, List.mem_cons]
        tauto
      · rw [if_neg h0]
        simp only [List.map_cons, List.mem_cons]
        rw [mapSet_keys_mem t k v k']
        tauto

theorem mapSet_keys_nodup {κ α : Type} [DecidableEq κ] :
    ∀ (m : List (κ × α)) (k : κ) (v : α),
      (m.map Prod.fst).Nodup → ((mapSet m k v).map Prod.fst).Nodup
  | [], k, v, _ => by simp [mapSet]
  | (k₀, v₀) :: t, k, v, h => by
      show ((if k₀ = k then (k₀, v) :: t else (k₀, v₀) :: mapSet t k v).map
        Prod.fst).Nodup
      simp only [List.map_cons, List.nodup_cons] at h
      by_cases h0 : k₀ = k
      · rw [if_pos h0]
        simp only [List.map_cons, List.nodup_cons]
        exact h
      · rw [if_neg h0]
        simp only [List.map_cons, List.nodup_cons]
        refine ⟨?_, mapSet_keys_nodup t k v h.2⟩
        intro hc
        rcases (mapSet_keys_mem t k v k₀).mp hc with hmem | heq
        · exact h.1 hmem
        · exact h0 heq

theorem foldl_weekStep_keys_nodup :
    ∀ (l : List Activity) (m : List (ℤ × WeekEntry)),
      (m.map Prod.fst).Nodup → ((l.foldl weekStep m).map Prod.fst).Nodup
  | [], _, h => h
  | a :: t, m, h => by
      simp only [List.foldl_cons]
      exact foldl_weekStep_keys_nodup t _ (mapSet_keys_nodup m _ _ h)

theorem mem_iff_mapGet {κ α : Type} [DecidableEq κ] :
    ∀ (m : List (κ × α)), (m.map Prod.fst).Nodup →
      ∀ p : κ × α, p ∈ m ↔ mapGet m p.1 = some p.2
  | [], _, p => by simp [mapGet]
  | (k₀, v₀) :: t, h, p => by
      simp only [List.map_cons, List.nodup_cons] at h
      rw [List.mem_cons]
      show p = (k₀, v₀) ∨ p ∈ t ↔
        (if p.1 = k₀ then some v₀ else mapGet t p.1) = some p.2
      by_cases hk : p.1 = k₀
      · rw [if_pos hk]
        constructor
        · rintro (rfl | hmem)
          · rfl
          · exact absurd (hk ▸ List.mem_map_of_mem Prod.fst hmem) h.1
        · intro hv
          exact Or.inl (Prod.ext hk (Option.some_inj.mp hv).symm)
      · rw [if_neg hk]
        rw [mem_iff_mapGet t h.2 p]
        constructor
        · rintro (rfl | hmem)
          · exact absurd rfl hk
          · exact hmem
        · exact fun hm => Or.inr hm

theorem accumOpt_right_comm (o : Option WeekEntry) (a b : Activity) :
    accumOpt (accumOpt o a) b = accumOpt (accumOpt o b) a := by
  unfold accumOpt weekAccum
  simp only [Option.getD_some]
  congr 1
  dsimp only
  by_cases ha : a.type = .strength <;> by_cases hb : b.type = .strength <;>
    simp [ha, hb, WeekEntry.mk.injEq] <;> omega

theorem foldl_weekStep_perm {l₁ l₂ : List Activity} (hp : List.Perm l₁ l₂) :
    List.Perm (l₁.foldl weekStep []) (l₂.foldl weekStep []) := by
  have h₁ := foldl_weekStep_keys_nodup l₁ [] (by simp)
  have h₂ := foldl_weekStep_keys_nodup l₂ [] (by simp)
  rw [List.perm_ext_iff_of_nodup (h₁.of_map) (h₂.of_map)]
  intro p
  rw [mem_iff_mapGet _ h₁ p, mem_iff_mapGet _ h₂ p,
    mapGet_foldl_weekStep l₁ [] p.1, mapGet_foldl_weekStep l₂ [] p.1,
    (hp.filter _).foldl_eq' (fun x _ y _ z => accumOpt_right_comm z x y) _]

/-- C8: `calcWeeklyLoads` is invariant under permutation of its input — every
reordering of the activity list produces the identical sorted list of weekly
load records. -/
theorem claim_C8 (l₁ l₂ : List Activity) (hp : List.Perm l₁ l₂) :
    calcWeeklyLoads l₁ = calcWeeklyLoads l₂ := by
  haveI htot : IsTotal WeeklyLoad (fun a b => a.week_start ≤ b.week_start) :=
    ⟨fun a b => le_total _ _⟩
  haveI htrans : IsTrans WeeklyLoad (fun a b => a.week_start ≤ b.week_start) :=
    ⟨fun a b c hab hbc => le_trans hab hbc⟩
  haveI hanti : IsAntisymm WeeklyLoad (fun a b => a.week_start < b.week_start) :=
    ⟨fun a b h1 h2 => absurd (lt_trans h1 h2) (lt_irrefl _)⟩
  unfold calcWeeklyLoads
  have hx : List.Perm ((l₁.foldl weekStep []).map toWeeklyLoad)
      ((l₂.foldl weekStep []).map toWeeklyLoad) :=
    (foldl_weekStep_perm hp).map _
  have hs₁ := List.perm_insertionSort
    (fun a b : WeeklyLoad => a.week_start ≤ b.week_start)
    ((l₁.foldl weekStep []).map toWeeklyLoad)
  have hs₂ := List.perm_insertionSort
    (fun a b : WeeklyLoad => a.week_start ≤ b.week_start)
    ((l₂.foldl weekStep []).map toWeeklyLoad)
  have hsorted₁ := List.sorted_insertionSort
    (fun a b : WeeklyLoad => a.week_start ≤ b.week_start)
    ((l₁.foldl weekStep []).map toWeeklyLoad)
  have hsorted₂ := List.sorted_insertionSort
    (fun a b : WeeklyLoad => a.week_start ≤ b.week_start)
    ((l₂.foldl weekStep []).map toWeeklyLoad)
  have hkey : ∀ l : List Activity,
      (((l.foldl weekStep []).map toWeeklyLoad).map WeeklyLoad.week_start).Nodup := by
    intro l
    have : ((l.foldl weekStep []).map toWeeklyLoad).map WeeklyLoad.week_start =
        (l.foldl weekStep []).map Prod.fst := by
      rw [List.map_map]
      rfl
    rw [this]
    exact foldl_weekStep_keys_nodup l [] (by simp)
  have hnd₁ : ((List.insertionSort
      (fun a b : WeeklyLoad => a.week_start ≤ b.week_start)
      ((l₁.foldl weekStep []).map toWeeklyLoad)).map WeeklyLoad.week_start).Nodup :=
    ((hs₁.map WeeklyLoad.week_start).nodup_iff).mpr (hkey l₁)
  have hnd₂ : ((List.insertionSort
      (fun a b : WeeklyLoad => a.week_start ≤ b.week_start)
      ((l₂.foldl weekStep []).map toWeeklyLoad)).map WeeklyLoad.week_start).Nodup :=
    ((hs₂.map WeeklyLoad.week_start).nodup_iff).mpr (hkey l₂)
  have hpw₁ : (List.insertionSort
      (fun a b : WeeklyLoad => a.week_start ≤ b.week_start)
      ((l₁.foldl weekStep []).map toWeeklyLoad)).Pairwise
      (fun a b => a.week_start < b.week_start) :=
    (hsorted₁.and (List.pairwise_map.mp hnd₁)).imp
      (fun h => lt_of_le_of_ne h.1 h.2)
  have hpw₂ : (List.insertionSort
      (fun a b : WeeklyLoad => a.week_start ≤ b.week_start)
      ((l₂.foldl weekStep []).map toWeeklyLoad)).Pairwise
      (fun a b => a.week_start < b.week_start) :=
    (hsorted₂.and (List.pairwise_map.mp hnd₂)).imp
      (fun h => lt_of_le_of_ne h.1 h.2)
  exact List.eq_of_perm_of_sorted (hs₁.trans (hx.trans hs₂.symm)) hpw₁ hpw₂

/-- C8 witness: swapping two concrete activities leaves the weekly loads
unchanged. -/
theorem claim_C8_witness :
    calcWeeklyLoads [⟨0, .strength, some 60⟩, ⟨1, .cardio, some 30⟩] =
      calcWeeklyLoads [⟨1, .cardio, some 30⟩, ⟨0, .strength, some 60⟩] :=
  claim_C8 [⟨0, .strength, some 60⟩, ⟨1, .cardio, some 30⟩]
    [⟨1, .cardio, some 30⟩, ⟨0, .strength, some 60⟩]
    (List.Perm.swap (⟨1, .cardio, some 30⟩ : Activity)
      (⟨0, .strength, some 60⟩ : Activity) [])

end PerformanceOS

